import Mathlib

/-!
Verification development for the `lab-ui-websocket` reconnecting WebSocket
wrapper (`src/lab-ui-websocket.ts`).

The development shallowly embeds the `LabUiWebsocket` class:

* the pure message pipeline (`get_message_object`, `onmessage`,
  `message_logic`, `send`) becomes pure Lean functions returning `Except`;
  the host primitive `JSON.parse` is abstracted as a parameter
  `parse : String → Option Json` and `JSON.stringify` on outgoing envelopes
  as `stringify : SendData → String` (both are platform library calls, not
  code of this repository);
* the stateful connection lifecycle (constructor, `connect`, the
  `onopen` / `onclose` handlers, the connect-timeout timer, the scheduled
  reconnect timer and `close`) becomes an explicit state structure
  `LabUiWebsocket` together with an executable step function over an action
  alphabet `Act`.  Timer and transport events are delivered by the
  environment nondeterministically (any pending task may fire next), which
  over-approximates the single-threaded JavaScript event loop; JavaScript
  handlers run to completion, so each handler is one atomic step.
  A `close` event of the underlying socket is delivered asynchronously (a
  queued task), as required by the WHATWG WebSocket specification; it is
  never fired synchronously from inside `ws.close()`.

Non-behavioural parts of the source (debug logging, `binaryType`,
`protocols`, the `websocketClass` injection seam, the textual contents of
thrown error messages) are omitted; thrown errors are represented by the
error-kind inductive `UiError`.
-/

/-- JavaScript values produced by `JSON.parse`: the JSON data model.
Numbers are modelled as integers, which is enough for every claim. -/
inductive Json where
  | null : Json
  | bool : Bool → Json
  | num : Int → Json
  | str : String → Json
  | arr : List Json → Json
  | obj : List (String × Json) → Json

/-- JavaScript truthiness of a parsed JSON value, as tested by the guard
`if (msgObject)` in `onmessage`: `null`, `false`, `0` and the empty string
are falsy, every other JSON value is truthy. -/
def Json.truthy : Json → Bool
  | .null => false
  | .bool b => b
  | .num n => n != 0
  | .str s => s != ""
  | .arr _ => true
  | .obj _ => true

/-- The error kinds the wrapper can raise, one constructor per distinct
`throw` site of the source. -/
inductive UiError where
  /-- `get_message_object`: the received text could not be parsed to JSON. -/
  | malformedPayload : UiError
  /-- `get_message_object`: the received frame payload was not a string. -/
  | unsupportedPayloadType : UiError
  /-- `send`: the argument was neither a string nor a structured envelope. -/
  | invalidPayloadKind : UiError
  /-- `send`: no transport is currently active. -/
  | notConnected : UiError
  /-- `message_logic` was invoked without being overridden. -/
  | unimplementedHandler : UiError
  deriving DecidableEq

/-- Payload of an inbound `MessageEvent`: either a text frame or a
non-textual (binary) frame. -/
inductive FrameData where
  | text : String → FrameData
  | binary : FrameData

/-- `get_message_object` from the source: succeeds only on a textual frame
whose payload parses as JSON; a textual frame that does not parse raises
the malformed-payload `TypeError`; a non-textual frame raises the
not-a-string `TypeError`.  `parse` abstracts the host `JSON.parse`. -/
def get_message_object (parse : String → Option Json) :
    FrameData → Except UiError Json
  | .text s =>
    match parse s with
    | some j => .ok j
    | none => .error .malformedPayload
  | .binary => .error .unsupportedPayloadType

/-- The default `message_logic` method: it always throws, demanding that
business logic be wired in by overriding it. -/
def message_logic (_msgObject : Json) : Except UiError Unit :=
  .error .unimplementedHandler

/-- The `onmessage` entry point with an explicit business-logic hook
`logic`: decode the frame with `get_message_object`, then, exactly when the
decoded value is truthy (the JavaScript guard `if (msgObject)`), invoke the
hook.  Returns the value handed to the hook (`some j`) or `none` when the
guard skipped it. -/
def onmessageWith (parse : String → Option Json)
    (logic : Json → Except UiError Unit) (f : FrameData) :
    Except UiError (Option Json) :=
  match get_message_object parse f with
  | .error e => .error e
  | .ok j =>
    if j.truthy then
      match logic j with
      | .error e => .error e
      | .ok _ => .ok (some j)
    else .ok none

/-- `onmessage` as shipped: the hook is the default (unoverridden)
`message_logic`. -/
def onmessageDefault (parse : String → Option Json) (f : FrameData) :
    Except UiError (Option Json) :=
  onmessageWith parse message_logic f

/-- The structured envelope accepted by `send`. -/
structure SendData where
  status : String
  data : Option Json

/-- Argument of `send`: a string, a structured envelope object, or (through
the untyped JavaScript surface) some other scalar such as a number. -/
inductive SendArg where
  | str : String → SendArg
  | obj : SendData → SendArg
  | scalarNum : Int → SendArg

/-- `send` from the source.  The payload-kind check runs first: an object
is serialized with `JSON.stringify` (abstracted as `stringify`), a string
passes through, anything else raises the invalid-payload `TypeError`.
Only then is connectivity checked: with no active transport (`this.ws`
null) the invalid-state error is raised; otherwise the text is transmitted
(the transmitted text is returned). -/
def send (stringify : SendData → String) (ws : Option Unit) (data : SendArg) :
    Except UiError String :=
  match
    (match data with
     | .obj d => Except.ok (stringify d)
     | .str s => Except.ok s
     | .scalarNum _ => Except.error UiError.invalidPayloadKind : Except UiError String)
  with
  | .error e => .error e
  | .ok dataString =>
    match ws with
    | some _ => .ok dataString
    | none => .error .notConnected

/-- The behaviour-relevant part of the settings object
(`LabUiWebsocketSettings`).  `debug`, `protocols`, `binaryType` and
`websocketClass` only affect logging and how the raw transport is
constructed, not the lifecycle, and are omitted.  `reconnectDecay` is a
rational (the source default is the float `1.5`). -/
structure Settings where
  automaticOpen : Bool
  reconnectInterval : Nat
  maxReconnectInterval : Nat
  reconnectDecay : ℚ
  timeoutInterval : Nat
  maxReconnectAttempts : Option Nat

/-- The default settings object of the source (lines 99-109). -/
def defaultSettings : Settings :=
  { automaticOpen := true
    reconnectInterval := 1000
    maxReconnectInterval := 30000
    reconnectDecay := 3 / 2
    timeoutInterval := 2000
    maxReconnectAttempts := none }

/-- Lifecycle state of one underlying transport instance. -/
inductive TState where
  | connecting : TState
  | opened : TState
  | closed : TState
  deriving DecidableEq

/-- One underlying `WebSocket` instance created by one `connect` call,
together with the per-call data its handlers close over: the mutable
captured `reconnectAttempt` variable and that call's connect-timeout
timer. -/
structure Transport where
  id : Nat
  tstate : TState
  /-- `close()` has been requested on this instance. -/
  closeRequested : Bool
  /-- The captured `reconnectAttempt` variable of the `connect` invocation
  that created this instance (set to `false` by its `onopen` handler). -/
  recAttempt : Bool
  /-- That invocation's connect-timeout timer is still pending. -/
  timeoutArmed : Bool
  deriving DecidableEq

/-- The controller's `readyState` values (`WebSocket.CONNECTING` /
`OPEN` / `CLOSING` / `CLOSED`). -/
inductive ReadyState where
  | connecting : ReadyState
  | opened : ReadyState
  | closing : ReadyState
  | closed : ReadyState
  deriving DecidableEq

/-- A caller-visible notification: one invocation of one of the public
callback hooks. -/
inductive Notif where
  | onconnecting : Notif
  | onopen : Notif
  | onclose : Notif
  | onerror : Notif
  deriving DecidableEq

/-- The state of one `LabUiWebsocket` controller instance, together with
the observables of an execution: every transport instance ever created
(`transports`), the pending scheduled-reconnect timers
(`pendingReconnect`, each entry the delay in milliseconds it was armed
with), and the notifications emitted so far (`notifs`, in order). -/
structure LabUiWebsocket where
  settings : Settings
  /-- `this.ws`: id of the transport currently referenced, if any. -/
  ws : Option Nat
  readyState : ReadyState
  forcedClose : Bool
  timedOut : Bool
  reconnectAttempts : Nat
  transports : List Transport
  pendingReconnect : List Nat
  notifs : List Notif
  nextId : Nat

/-- Update the transport with the given id (ids are unique in reachable
states). -/
def LabUiWebsocket.updateT (c : LabUiWebsocket) (i : Nat)
    (f : Transport → Transport) : LabUiWebsocket :=
  { c with transports := c.transports.map fun t => if t.id = i then f t else t }

/-- Look up a transport instance by id. -/
def LabUiWebsocket.findT (c : LabUiWebsocket) (i : Nat) : Option Transport :=
  c.transports.find? fun t => t.id = i

/-- The effect of calling `.close()` on transport `i` (the real close
event is delivered later, asynchronously). -/
def LabUiWebsocket.requestClose (c : LabUiWebsocket) (i : Nat) : LabUiWebsocket :=
  c.updateT i fun t => { t with closeRequested := true }

/-- Cancellation (or firing) of the connect-timeout timer of attempt `i`. -/
def LabUiWebsocket.disarmTimer (c : LabUiWebsocket) (i : Nat) : LabUiWebsocket :=
  c.updateT i fun t => { t with timeoutArmed := false }

/-- The `connect(reconnectAttempt)` method (lines 173-229): construct a
fresh transport, record it as `this.ws` (without closing any previous
one), arm its connect-timeout timer, attach handlers (implicit in the step
function below) and emit `onconnecting`.  It does not touch `readyState`,
`forcedClose` or `reconnectAttempts`. -/
def LabUiWebsocket.connect (c : LabUiWebsocket) (reconnectAttempt : Bool) :
    LabUiWebsocket :=
  let t : Transport :=
    { id := c.nextId
      tstate := .connecting
      closeRequested := false
      recAttempt := reconnectAttempt
      timeoutArmed := true }
  { c with
      ws := some c.nextId
      nextId := c.nextId + 1
      transports := c.transports ++ [t]
      notifs := c.notifs ++ [.onconnecting] }

/-- The constructor (lines 111-131): merge settings, zero the reconnect
counter, set `readyState = CONNECTING`, and connect immediately when
`automaticOpen` is true. -/
def LabUiWebsocket.new (st : Settings) : LabUiWebsocket :=
  let c : LabUiWebsocket :=
    { settings := st
      ws := none
      readyState := .connecting
      forcedClose := false
      timedOut := false
      reconnectAttempts := 0
      transports := []
      pendingReconnect := []
      notifs := []
      nextId := 0 }
  if st.automaticOpen then c.connect false else c

/-- The `close()` method (lines 263-270): with an active transport, set
`forcedClose`, request transport closure and return `true`; otherwise
return `false` and change nothing. -/
def LabUiWebsocket.close (c : LabUiWebsocket) : Bool × LabUiWebsocket :=
  match c.ws with
  | some i => (true, ({ c with forcedClose := true } : LabUiWebsocket).requestClose i)
  | none => (false, c)

/-- The connect-timeout callback of attempt `i` (lines 184-189): set
`timedOut`, call `close()` on that attempt's transport, and reset
`timedOut` to `false` — all synchronously within the one callback.  The
timer has now fired, so it is disarmed.  No notification is emitted. -/
def timeoutHandler (i : Nat) (c : LabUiWebsocket) : LabUiWebsocket :=
  let c1 := { c with timedOut := true }
  let c2 := c1.requestClose i
  let c3 := { c2 with timedOut := false }
  c3.disarmTimer i

/-- Delivery of the `open` event of transport `i` and the attached
`onopen` handler (lines 191-200): the transport is now open; the handler
clears that attempt's timeout timer, sets `readyState = OPEN`, sets the
captured `reconnectAttempt` variable to `false`, and emits `onopen`.
`reconnectAttempts` is not touched. -/
def openHandler (i : Nat) (c : LabUiWebsocket) : LabUiWebsocket :=
  let c1 := c.updateT i fun t => { t with tstate := .opened, recAttempt := false }
  let c2 := c1.disarmTimer i
  { c2 with readyState := .opened, notifs := c2.notifs ++ [.onopen] }

/-- Delivery of the `close` event of transport `i` and the attached
`onclose` handler (lines 202-219): the transport is now closed; the
handler clears that attempt's timeout timer and nulls `this.ws`.  If
`forcedClose` is set: `readyState = CLOSED` and `onclose` is emitted.
Otherwise: `readyState = CONNECTING`, `onconnecting` is emitted, `onclose`
is additionally emitted when the captured `reconnectAttempt` is false and
`this.timedOut` is false, and a retry `connect(true)` is scheduled after
`reconnectInterval` milliseconds. -/
def closeHandler (i : Nat) (c : LabUiWebsocket) : LabUiWebsocket :=
  let recA := ((c.findT i).map Transport.recAttempt).getD true
  let c0 := c.updateT i fun t => { t with tstate := .closed }
  let c1 := c0.disarmTimer i
  let c2 := { c1 with ws := none }
  if c2.forcedClose then
    { c2 with readyState := .closed, notifs := c2.notifs ++ [.onclose] }
  else
    let c3 : LabUiWebsocket :=
      { c2 with readyState := .connecting, notifs := c2.notifs ++ [.onconnecting] }
    let c4 : LabUiWebsocket :=
      if !recA && !c3.timedOut then { c3 with notifs := c3.notifs ++ [.onclose] }
      else c3
    { c4 with pendingReconnect := c4.pendingReconnect ++ [c4.settings.reconnectInterval] }

/-- One schedulable action: a public method call by the caller, the firing
of a pending timer, or delivery of a transport event by the environment. -/
inductive Act where
  /-- Caller invokes `close()`. -/
  | userClose : Act
  /-- Caller invokes `connect(r)` directly. -/
  | userConnect : Bool → Act
  /-- The connect-timeout timer of attempt `i` fires. -/
  | timeoutFire : Nat → Act
  /-- The environment delivers the `open` event of transport `i`. -/
  | openEvt : Nat → Act
  /-- The environment delivers the `close` event of transport `i`. -/
  | closeEvt : Nat → Act
  /-- A scheduled reconnect timer fires, running `connect(true)`. -/
  | reconnectFire : Act

/-- The step function: `none` when the action is not currently enabled.
An `open` event can only be delivered for a transport still connecting on
which `close()` has not been requested; a `close` event for any transport
not yet closed (lost connection, refused connection, or a requested
close); the timeout callback only while that attempt's timer is armed;
a reconnect only while one is pending (the earliest pending one fires). -/
def step (a : Act) (c : LabUiWebsocket) : Option LabUiWebsocket :=
  match a with
  | .userClose => some (c.close).2
  | .userConnect r => some (c.connect r)
  | .timeoutFire i =>
    match c.findT i with
    | some t => if t.timeoutArmed then some (timeoutHandler i c) else none
    | none => none
  | .openEvt i =>
    match c.findT i with
    | some t =>
      if t.tstate = .connecting && !t.closeRequested then some (openHandler i c)
      else none
    | none => none
  | .closeEvt i =>
    match c.findT i with
    | some t => if t.tstate ≠ .closed then some (closeHandler i c) else none
    | none => none
  | .reconnectFire =>
    match c.pendingReconnect with
    | [] => none
    | _ :: rest => some (({ c with pendingReconnect := rest } : LabUiWebsocket).connect true)

/-- Run a sequence of actions from a state; `none` if any action on the
way is not enabled. -/
def run : List Act → LabUiWebsocket → Option LabUiWebsocket
  | [], c => some c
  | a :: acts, c => (step a c).bind (run acts)

/-- Number of live transport instances: created and not yet closed. -/
def liveCount (c : LabUiWebsocket) : Nat :=
  (c.transports.filter fun t => t.tstate ≠ TState.closed).length

/-- Number of `onconnecting` notifications emitted so far. -/
def connCount (c : LabUiWebsocket) : Nat :=
  c.notifs.count Notif.onconnecting

/-- The action sequence contains no caller-initiated `connect` call. -/
def noUserConnect (acts : List Act) : Prop :=
  ∀ r, Act.userConnect r ∉ acts

/-! ### Basic lemmas about the embedding -/

theorem mem_updateT {c : LabUiWebsocket} {i : Nat} {f : Transport → Transport}
    {t' : Transport} (h : t' ∈ (c.updateT i f).transports) :
    ∃ t, t ∈ c.transports ∧ t' = if t.id = i then f t else t := by
  simp only [LabUiWebsocket.updateT] at h
  rcases List.mem_map.mp h with ⟨t, ht, hEq⟩
  exact ⟨t, ht, hEq.symm⟩

theorem updateT_map_id {c : LabUiWebsocket} {i : Nat} {f : Transport → Transport}
    (hf : ∀ t, (f t).id = t.id) :
    ((c.updateT i f).transports).map Transport.id = c.transports.map Transport.id := by
  simp only [LabUiWebsocket.updateT, List.map_map]
  refine List.map_eq_map_iff.mpr ?_
  intro t _
  by_cases h : t.id = i
  · simp [Function.comp, h, hf]
  · simp [Function.comp, h]

theorem liveCount_updateT_le {c : LabUiWebsocket} {i : Nat} {f : Transport → Transport}
    (hf : ∀ t ∈ c.transports, t.id = i → (f t).tstate ≠ TState.closed →
      t.tstate ≠ TState.closed) :
    liveCount (c.updateT i f) ≤ liveCount c := by
  unfold liveCount
  simp only [LabUiWebsocket.updateT]
  rw [← List.countP_eq_length_filter, ← List.countP_eq_length_filter, List.countP_map]
  refine List.countP_mono_left ?_
  intro t ht hp
  by_cases h : t.id = i
  · simp only [Function.comp_apply, if_pos h, decide_eq_true_eq] at hp
    simp only [decide_eq_true_eq]
    exact hf t ht h hp
  · simpa [Function.comp_apply, if_neg h] using hp

theorem findT_mem {c : LabUiWebsocket} {i : Nat} {t : Transport}
    (h : c.findT i = some t) : t ∈ c.transports :=
  List.mem_of_find?_eq_some h

theorem findT_id {c : LabUiWebsocket} {i : Nat} {t : Transport}
    (h : c.findT i = some t) : t.id = i := by
  have := List.find?_some h
  simpa [decide_eq_true_eq] using this

theorem closeHandler_transports (i : Nat) (c : LabUiWebsocket) :
    (closeHandler i c).transports =
      ((c.updateT i fun t => { t with tstate := TState.closed }).updateT i
        fun t => { t with timeoutArmed := false }).transports := by
  unfold closeHandler LabUiWebsocket.disarmTimer
  dsimp only
  split
  · rfl
  · split <;> rfl

theorem closeHandler_ws (i : Nat) (c : LabUiWebsocket) :
    (closeHandler i c).ws = none := by
  unfold closeHandler
  dsimp only
  split
  · rfl
  · split <;> rfl

theorem closeHandler_timedOut (i : Nat) (c : LabUiWebsocket) :
    (closeHandler i c).timedOut = c.timedOut := by
  unfold closeHandler
  dsimp only
  split
  · rfl
  · split <;> rfl

theorem closeHandler_forcedClose (i : Nat) (c : LabUiWebsocket) :
    (closeHandler i c).forcedClose = c.forcedClose := by
  unfold closeHandler
  dsimp only
  split
  · rfl
  · split <;> rfl

theorem closeHandler_settings (i : Nat) (c : LabUiWebsocket) :
    (closeHandler i c).settings = c.settings := by
  unfold closeHandler
  dsimp only
  split
  · rfl
  · split <;> rfl

theorem closeHandler_reconnectAttempts (i : Nat) (c : LabUiWebsocket) :
    (closeHandler i c).reconnectAttempts = c.reconnectAttempts := by
  unfold closeHandler
  dsimp only
  split
  · rfl
  · split <;> rfl

theorem closeHandler_nextId (i : Nat) (c : LabUiWebsocket) :
    (closeHandler i c).nextId = c.nextId := by
  unfold closeHandler
  dsimp only
  split
  · rfl
  · split <;> rfl

theorem closeHandler_pending_forced {c : LabUiWebsocket} (i : Nat)
    (h : c.forcedClose = true) :
    (closeHandler i c).pendingReconnect = c.pendingReconnect := by
  unfold closeHandler LabUiWebsocket.disarmTimer LabUiWebsocket.updateT
  dsimp only
  rw [if_pos h]

theorem closeHandler_pending_unforced {c : LabUiWebsocket} (i : Nat)
    (h : c.forcedClose = false) :
    (closeHandler i c).pendingReconnect =
      c.pendingReconnect ++ [c.settings.reconnectInterval] := by
  unfold closeHandler LabUiWebsocket.disarmTimer LabUiWebsocket.updateT
  dsimp only
  rw [if_neg (by simp [h])]
  dsimp only
  split <;> rfl

theorem closeHandler_notifs_forced {c : LabUiWebsocket} (i : Nat)
    (h : c.forcedClose = true) :
    (closeHandler i c).notifs = c.notifs ++ [Notif.onclose] := by
  unfold closeHandler LabUiWebsocket.disarmTimer LabUiWebsocket.updateT
  dsimp only
  rw [if_pos h]

theorem closeHandler_readyState_forced {c : LabUiWebsocket} (i : Nat)
    (h : c.forcedClose = true) :
    (closeHandler i c).readyState = ReadyState.closed := by
  unfold closeHandler LabUiWebsocket.disarmTimer LabUiWebsocket.updateT
  dsimp only
  rw [if_pos h]

/-! ### Invariants over the full action alphabet -/

/-- Facts true in every reachable state, whatever the caller and the
environment do: `timedOut` is `false` whenever any handler other than the
timeout callback itself can observe it (the timeout callback sets it and
resets it within one synchronous run-to-completion step); the
`reconnectAttempts` counter is never changed from its initial `0`; and
every pending scheduled reconnect was armed with the flat
`reconnectInterval` delay. -/
def GInv (c : LabUiWebsocket) : Prop :=
  c.timedOut = false ∧ c.reconnectAttempts = 0 ∧
    ∀ d ∈ c.pendingReconnect, d = c.settings.reconnectInterval

theorem ginv_new (st : Settings) : GInv (LabUiWebsocket.new st) := by
  unfold LabUiWebsocket.new LabUiWebsocket.connect GInv
  split <;> simp

theorem ginv_step {a : Act} {c c' : LabUiWebsocket} (hg : GInv c)
    (h : step a c = some c') : GInv c' := by
  obtain ⟨h1, h2, h3⟩ := hg
  cases a with
  | userClose =>
    simp only [step] at h
    injection h with h
    subst h
    unfold LabUiWebsocket.close
    cases hw : c.ws with
    | none => exact ⟨h1, h2, h3⟩
    | some i => exact ⟨h1, h2, h3⟩
  | userConnect r =>
    simp only [step] at h
    injection h with h
    subst h
    exact ⟨h1, h2, h3⟩
  | timeoutFire i =>
    simp only [step] at h
    cases hf : c.findT i with
    | none => rw [hf] at h; exact absurd h (by simp)
    | some t =>
      rw [hf] at h
      dsimp only at h
      by_cases ha : t.timeoutArmed
      · rw [if_pos ha] at h
        injection h with h
        subst h
        exact ⟨rfl, h2, h3⟩
      · rw [if_neg ha] at h; exact absurd h (by simp)
  | openEvt i =>
    simp only [step] at h
    cases hf : c.findT i with
    | none => rw [hf] at h; exact absurd h (by simp)
    | some t =>
      rw [hf] at h
      dsimp only at h
      by_cases ha : t.tstate = TState.connecting && !t.closeRequested
      · rw [if_pos ha] at h
        injection h with h
        subst h
        exact ⟨h1, h2, h3⟩
      · rw [if_neg ha] at h; exact absurd h (by simp)
  | closeEvt i =>
    simp only [step] at h
    cases hf : c.findT i with
    | none => rw [hf] at h; exact absurd h (by simp)
    | some t =>
      rw [hf] at h
      dsimp only at h
      by_cases ha : t.tstate ≠ TState.closed
      · rw [if_pos ha] at h
        injection h with h
        subst h
        refine ⟨(closeHandler_timedOut i c).trans h1,
          (closeHandler_reconnectAttempts i c).trans h2, ?_⟩
        rw [closeHandler_settings]
        by_cases hfc : c.forcedClose
        · rw [closeHandler_pending_forced i hfc]
          exact h3
        · rw [closeHandler_pending_unforced i (by simpa using hfc)]
          intro d hd
          rcases List.mem_append.mp hd with hd | hd
          · exact h3 d hd
          · simpa using hd
      · rw [if_neg ha] at h; exact absurd h (by simp)
  | reconnectFire =>
    simp only [step] at h
    cases hp : c.pendingReconnect with
    | nil => rw [hp] at h; exact absurd h (by simp)
    | cons d rest =>
      rw [hp] at h
      dsimp only at h
      injection h with h
      subst h
      refine ⟨h1, h2, ?_⟩
      intro e he
      exact h3 e (by rw [hp]; exact List.mem_cons_of_mem _ he)

theorem ginv_run {acts : List Act} {c c' : LabUiWebsocket} (hg : GInv c)
    (h : run acts c = some c') : GInv c' := by
  induction acts generalizing c with
  | nil =>
    simp only [run] at h
    injection h with h
    subst h
    exact hg
  | cons a acts ih =>
    simp only [run] at h
    cases hs : step a c with
    | none => rw [hs] at h; exact absurd h (by simp)
    | some c1 =>
      rw [hs] at h
      simp only [Option.some_bind] at h
      exact ih (ginv_step hg hs) h

/-! ### Inversion lemmas for the step function -/

theorem step_userClose_eq {c c' : LabUiWebsocket}
    (h : step .userClose c = some c') : c' = (c.close).2 := by
  simp only [step] at h
  exact (Option.some.inj h).symm

theorem step_userConnect_eq {r : Bool} {c c' : LabUiWebsocket}
    (h : step (.userConnect r) c = some c') : c' = c.connect r := by
  simp only [step] at h
  exact (Option.some.inj h).symm

theorem step_timeoutFire_inv {i : Nat} {c c' : LabUiWebsocket}
    (h : step (.timeoutFire i) c = some c') :
    c' = timeoutHandler i c ∧ ∃ t, c.findT i = some t ∧ t.timeoutArmed = true := by
  simp only [step] at h
  cases hf : c.findT i with
  | none => rw [hf] at h; exact absurd h (by simp)
  | some t =>
    rw [hf] at h
    dsimp only at h
    by_cases ha : t.timeoutArmed
    · rw [if_pos ha] at h
      exact ⟨(Option.some.inj h).symm, t, rfl, ha⟩
    · rw [if_neg ha] at h; exact absurd h (by simp)

theorem step_openEvt_inv {i : Nat} {c c' : LabUiWebsocket}
    (h : step (.openEvt i) c = some c') :
    c' = openHandler i c ∧
      ∃ t, c.findT i = some t ∧ t.tstate = TState.connecting ∧
        t.closeRequested = false := by
  simp only [step] at h
  cases hf : c.findT i with
  | none => rw [hf] at h; exact absurd h (by simp)
  | some t =>
    rw [hf] at h
    dsimp only at h
    by_cases ha : t.tstate = TState.connecting && !t.closeRequested
    · rw [if_pos ha] at h
      refine ⟨(Option.some.inj h).symm, t, rfl, ?_, ?_⟩
      · have := (Bool.and_eq_true _ _).mp ha
        exact of_decide_eq_true this.1
      · have := (Bool.and_eq_true _ _).mp ha
        simpa using this.2
    · rw [if_neg ha] at h; exact absurd h (by simp)

theorem step_closeEvt_inv {i : Nat} {c c' : LabUiWebsocket}
    (h : step (.closeEvt i) c = some c') :
    c' = closeHandler i c ∧ ∃ t, c.findT i = some t ∧ t.tstate ≠ TState.closed := by
  simp only [step] at h
  cases hf : c.findT i with
  | none => rw [hf] at h; exact absurd h (by simp)
  | some t =>
    rw [hf] at h
    dsimp only at h
    by_cases ha : t.tstate ≠ TState.closed
    · rw [if_pos ha] at h
      exact ⟨(Option.some.inj h).symm, t, rfl, ha⟩
    · rw [if_neg ha] at h; exact absurd h (by simp)

theorem step_reconnectFire_inv {c c' : LabUiWebsocket}
    (h : step .reconnectFire c = some c') :
    ∃ d rest, c.pendingReconnect = d :: rest ∧
      c' = ({ c with pendingReconnect := rest } : LabUiWebsocket).connect true := by
  simp only [step] at h
  cases hp : c.pendingReconnect with
  | nil => rw [hp] at h; exact absurd h (by simp)
  | cons d rest =>
    rw [hp] at h
    dsimp only at h
    exact ⟨d, rest, rfl, (Option.some.inj h).symm⟩

/-- Every step keeps the settings object: the configuration is immutable
after construction. -/
theorem step_settings {a : Act} {c c' : LabUiWebsocket}
    (h : step a c = some c') : c'.settings = c.settings := by
  cases a with
  | userClose =>
    rw [step_userClose_eq h]
    unfold LabUiWebsocket.close
    cases hw : c.ws with
    | none => rfl
    | some i => rfl
  | userConnect r => rw [step_userConnect_eq h]; rfl
  | timeoutFire i => rw [(step_timeoutFire_inv h).1]; rfl
  | openEvt i => rw [(step_openEvt_inv h).1]; rfl
  | closeEvt i => rw [(step_closeEvt_inv h).1, closeHandler_settings]
  | reconnectFire =>
    obtain ⟨d, rest, hp, rfl⟩ := step_reconnectFire_inv h
    rfl

theorem run_settings {acts : List Act} {c c' : LabUiWebsocket}
    (h : run acts c = some c') : c'.settings = c.settings := by
  induction acts generalizing c with
  | nil =>
    simp only [run] at h
    injection h with h
    subst h
    rfl
  | cons a acts ih =>
    simp only [run] at h
    cases hs : step a c with
    | none => rw [hs] at h; exact absurd h (by simp)
    | some c1 =>
      rw [hs] at h
      simp only [Option.some_bind] at h
      exact (ih h).trans (step_settings hs)

/-! ### Transport-list normal forms of the handlers -/

theorem close_snd_of_some {c : LabUiWebsocket} {i : Nat} (hw : c.ws = some i) :
    (c.close).2 = ({ c with forcedClose := true } : LabUiWebsocket).requestClose i := by
  unfold LabUiWebsocket.close
  rw [hw]

theorem close_snd_of_none {c : LabUiWebsocket} (hw : c.ws = none) :
    (c.close).2 = c := by
  unfold LabUiWebsocket.close
  rw [hw]

theorem timeoutHandler_transports (i : Nat) (c : LabUiWebsocket) :
    (timeoutHandler i c).transports =
      (c.updateT i fun t =>
        { t with closeRequested := true, timeoutArmed := false }).transports := by
  unfold timeoutHandler LabUiWebsocket.requestClose LabUiWebsocket.disarmTimer
    LabUiWebsocket.updateT
  dsimp only
  rw [List.map_map]
  refine List.map_eq_map_iff.mpr ?_
  intro t _
  by_cases h : t.id = i <;> simp [Function.comp, h]

theorem openHandler_transports (i : Nat) (c : LabUiWebsocket) :
    (openHandler i c).transports =
      (c.updateT i fun t =>
        { t with tstate := TState.opened, recAttempt := false,
                 timeoutArmed := false }).transports := by
  unfold openHandler LabUiWebsocket.disarmTimer LabUiWebsocket.updateT
  dsimp only
  rw [List.map_map]
  refine List.map_eq_map_iff.mpr ?_
  intro t _
  by_cases h : t.id = i <;> simp [Function.comp, h]

theorem closeHandler_transports2 (i : Nat) (c : LabUiWebsocket) :
    (closeHandler i c).transports =
      (c.updateT i fun t =>
        { t with tstate := TState.closed, timeoutArmed := false }).transports := by
  rw [closeHandler_transports]
  unfold LabUiWebsocket.updateT
  dsimp only
  rw [List.map_map]
  refine List.map_eq_map_iff.mpr ?_
  intro t _
  by_cases h : t.id = i <;> simp [Function.comp, h]

/-! ### Invariants of controller-driven executions -/

/-- Inductive invariant of every execution in which the caller never
invokes `connect` directly (the controller-driven lifecycle: the automatic
initial connect, transport events, timers, and any number of `close()`
calls): every live transport is exactly the one referenced by `this.ws`;
while a transport is referenced no reconnect is pending; at most one
reconnect is pending; transport ids are the creation order `0,1,2,...`;
and at most one live transport exists. -/
def InvNC (c : LabUiWebsocket) : Prop :=
  (∀ t ∈ c.transports, t.tstate ≠ TState.closed → c.ws = some t.id) ∧
  (c.ws ≠ none → c.pendingReconnect = []) ∧
  c.pendingReconnect.length ≤ 1 ∧
  c.transports.map Transport.id = List.range c.nextId ∧
  liveCount c ≤ 1

theorem invNC_new (st : Settings) : InvNC (LabUiWebsocket.new st) := by
  unfold LabUiWebsocket.new LabUiWebsocket.connect InvNC liveCount
  split <;> simp [List.range_succ]

/-- Preservation of `InvNC` by any step whose whole effect on the
observable fields is one transport-list update that keeps ids and can only
keep a transport of the updated id live if it was live before. -/
theorem invNC_preserved_updateT {c c' : LabUiWebsocket} {i : Nat}
    {f : Transport → Transport}
    (hT : c'.transports = (c.updateT i f).transports)
    (hws : c'.ws = c.ws) (hpend : c'.pendingReconnect = c.pendingReconnect)
    (hnext : c'.nextId = c.nextId)
    (hid : ∀ t, (f t).id = t.id)
    (hts : ∀ t ∈ c.transports, t.id = i →
      (f t).tstate ≠ TState.closed → t.tstate ≠ TState.closed)
    (hi : InvNC c) : InvNC c' := by
  obtain ⟨hA, hB, hC, hD, hE⟩ := hi
  refine ⟨?_, ?_, ?_, ?_, ?_⟩
  · intro t' ht' hl
    rw [hT] at ht'
    obtain ⟨t, ht, hEq⟩ := mem_updateT ht'
    subst hEq
    rw [hws]
    by_cases hti : t.id = i
    · rw [if_pos hti] at hl ⊢
      rw [hid]
      exact hA t ht (hts t ht hti hl)
    · rw [if_neg hti] at hl ⊢
      exact hA t ht hl
  · rw [hws, hpend]; exact hB
  · rw [hpend]; exact hC
  · rw [hT, hnext]
    exact (updateT_map_id hid).trans hD
  · have hv : liveCount c' = liveCount (c.updateT i f) := by
      unfold liveCount; rw [hT]
    rw [hv]
    exact le_trans (liveCount_updateT_le hts) hE

/-- With unique ids, every transport in the list carrying the id of the
transport returned by `findT` is that transport. -/
theorem eq_of_findT_of_mem {c : LabUiWebsocket} {i : Nat} {t t0 : Transport}
    (hD : c.transports.map Transport.id = List.range c.nextId)
    (hft : c.findT i = some t0) (ht : t ∈ c.transports) (hti : t.id = i) :
    t = t0 := by
  have hnd : (c.transports.map Transport.id).Nodup := by
    rw [hD]; exact List.nodup_range c.nextId
  exact List.inj_on_of_nodup_map hnd ht (findT_mem hft)
    (by rw [hti, findT_id hft])

theorem invNC_step {a : Act} {c c' : LabUiWebsocket} (hi : InvNC c)
    (h : step a c = some c') (hnc : ∀ r, a ≠ Act.userConnect r) : InvNC c' := by
  cases a with
  | userConnect r => exact absurd rfl (hnc r)
  | userClose =>
    cases hw : c.ws with
    | none =>
      rw [step_userClose_eq h, close_snd_of_none hw]
      exact hi
    | some i =>
      rw [step_userClose_eq h, close_snd_of_some hw]
      exact invNC_preserved_updateT (c := { c with forcedClose := true })
        (f := fun t => { t with closeRequested := true })
        rfl rfl rfl rfl (fun t => rfl) (fun t _ _ hl => hl)
        (show InvNC ({ c with forcedClose := true } : LabUiWebsocket) from hi)
  | timeoutFire i =>
    rw [(step_timeoutFire_inv h).1]
    exact invNC_preserved_updateT (c := c)
      (f := fun t => { t with closeRequested := true, timeoutArmed := false })
      (timeoutHandler_transports i c) rfl rfl rfl (fun t => rfl)
      (fun t _ _ hl => hl) hi
  | openEvt i =>
    obtain ⟨hc', t0, hft, hconn, -⟩ := step_openEvt_inv h
    have hD := hi.2.2.2.1
    rw [hc']
    refine invNC_preserved_updateT (c := c)
      (f := fun t =>
        { t with tstate := TState.opened, recAttempt := false, timeoutArmed := false })
      (openHandler_transports i c) rfl rfl rfl (fun t => rfl) ?_ hi
    intro t ht hti _
    rw [eq_of_findT_of_mem hD hft ht hti, hconn]
    simp
  | closeEvt i =>
    obtain ⟨hc', t0, hft, hlive⟩ := step_closeEvt_inv h
    obtain ⟨hA, hB, hC, hD, hE⟩ := hi
    have hwsi : c.ws = some i := by
      have := hA t0 (findT_mem hft) hlive
      rw [findT_id hft] at this
      exact this
    have hpnil : c.pendingReconnect = [] := hB (by rw [hwsi]; simp)
    subst hc'
    refine ⟨?_, ?_, ?_, ?_, ?_⟩
    · intro t' ht' hl
      rw [closeHandler_transports2] at ht'
      obtain ⟨t, ht, hEq⟩ := mem_updateT ht'
      subst hEq
      exfalso
      by_cases hti : t.id = i
      · rw [if_pos hti] at hl
        exact hl rfl
      · rw [if_neg hti] at hl
        have := hA t ht hl
        rw [hwsi] at this
        exact hti (Option.some.inj this.symm)
    · intro hh
      rw [closeHandler_ws] at hh
      exact absurd rfl hh
    · by_cases hfc : c.forcedClose
      · rw [closeHandler_pending_forced i hfc]; exact hC
      · rw [closeHandler_pending_unforced i (by simpa using hfc), hpnil]
        simp
    · have hv := closeHandler_transports2 i c
      rw [hv, closeHandler_nextId]
      exact (updateT_map_id
        (f := fun t => { t with tstate := TState.closed, timeoutArmed := false })
        (fun t => rfl)).trans hD
    · have hv : liveCount (closeHandler i c) =
          liveCount (c.updateT i fun t =>
            { t with tstate := TState.closed, timeoutArmed := false }) := by
        unfold liveCount
        rw [closeHandler_transports2]
      rw [hv]
      refine le_trans (liveCount_updateT_le ?_) hE
      intro t _ _ hl
      exact absurd rfl hl
  | reconnectFire =>
    obtain ⟨d, rest, hp, hc'⟩ := step_reconnectFire_inv h
    obtain ⟨hA, hB, hC, hD, hE⟩ := hi
    have hwsnone : c.ws = none := by
      by_contra hne
      rw [hB hne] at hp
      exact absurd hp (by simp)
    have hnolive : ∀ t ∈ c.transports, t.tstate = TState.closed := by
      intro t ht
      by_contra hne
      have := hA t ht hne
      rw [hwsnone] at this
      exact absurd this (by simp)
    have hrest : rest = [] := by
      rw [hp] at hC
      simpa [Nat.succ_le_succ_iff] using hC
    subst hc'
    refine ⟨?_, ?_, ?_, ?_, ?_⟩
    · intro t' ht' hl
      unfold LabUiWebsocket.connect at ht' ⊢
      dsimp only at ht' ⊢
      rcases List.mem_append.mp ht' with hmem | hmem
      · exact absurd (hnolive t' hmem) hl
      · rw [List.mem_singleton.mp hmem]
    · intro _
      unfold LabUiWebsocket.connect
      dsimp only
      exact hrest
    · unfold LabUiWebsocket.connect
      dsimp only
      rw [hrest]
      simp
    · unfold LabUiWebsocket.connect
      dsimp only
      rw [List.map_append, hD, List.range_succ]
      rfl
    · unfold liveCount LabUiWebsocket.connect
      dsimp only
      rw [List.filter_append]
      have hfilter : c.transports.filter (fun t => t.tstate ≠ TState.closed) = [] :=
        List.filter_eq_nil_iff.mpr (by
          intro t ht
          simp [hnolive t ht])
      rw [hfilter]
      simp

theorem invNC_run {acts : List Act} {c c' : LabUiWebsocket} (hi : InvNC c)
    (hnc : noUserConnect acts) (h : run acts c = some c') : InvNC c' := by
  induction acts generalizing c with
  | nil =>
    simp only [run] at h
    injection h with h
    subst h
    exact hi
  | cons a acts ih =>
    simp only [run] at h
    cases hs : step a c with
    | none => rw [hs] at h; exact absurd h (by simp)
    | some c1 =>
      rw [hs] at h
      simp only [Option.some_bind] at h
      have hna : ∀ r, a ≠ Act.userConnect r := by
        intro r hr
        subst hr
        exact hnc r (List.mem_cons_self _ _)
      exact ih (invNC_step hi hs hna)
        (fun r hr => hnc r (List.mem_cons_of_mem _ hr)) h

/-- Once `forcedClose` is set and no reconnect is pending, any
controller-driven step keeps `forcedClose` set, keeps the reconnect queue
empty, and emits no further `onconnecting` notification. -/
theorem step_after_forced {a : Act} {c c' : LabUiWebsocket}
    (h : step a c = some c') (hna : ∀ r, a ≠ Act.userConnect r)
    (hf : c.forcedClose = true) (hp : c.pendingReconnect = []) :
    c'.forcedClose = true ∧ c'.pendingReconnect = [] ∧
      connCount c' = connCount c := by
  cases a with
  | userConnect r => exact absurd rfl (hna r)
  | userClose =>
    cases hw : c.ws with
    | none => rw [step_userClose_eq h, close_snd_of_none hw]; exact ⟨hf, hp, rfl⟩
    | some i => rw [step_userClose_eq h, close_snd_of_some hw]; exact ⟨rfl, hp, rfl⟩
  | timeoutFire i =>
    rw [(step_timeoutFire_inv h).1]
    exact ⟨hf, hp, rfl⟩
  | openEvt i =>
    rw [(step_openEvt_inv h).1]
    refine ⟨hf, hp, ?_⟩
    unfold connCount openHandler LabUiWebsocket.disarmTimer LabUiWebsocket.updateT
    dsimp only
    rw [List.count_append]
    simp
  | closeEvt i =>
    rw [(step_closeEvt_inv h).1]
    refine ⟨?_, ?_, ?_⟩
    · rw [closeHandler_forcedClose]; exact hf
    · rw [closeHandler_pending_forced i hf]; exact hp
    · unfold connCount
      rw [closeHandler_notifs_forced i hf, List.count_append]
      simp
  | reconnectFire =>
    obtain ⟨d, rest, hpr, -⟩ := step_reconnectFire_inv h
    rw [hp] at hpr
    exact absurd hpr (by simp)

theorem run_after_forced {acts : List Act} {c c' : LabUiWebsocket}
    (hnc : noUserConnect acts) (hf : c.forcedClose = true)
    (hp : c.pendingReconnect = []) (h : run acts c = some c') :
    c'.forcedClose = true ∧ c'.pendingReconnect = [] ∧
      connCount c' = connCount c := by
  induction acts generalizing c with
  | nil =>
    simp only [run] at h
    injection h with h
    subst h
    exact ⟨hf, hp, rfl⟩
  | cons a acts ih =>
    simp only [run] at h
    cases hs : step a c with
    | none => rw [hs] at h; exact absurd h (by simp)
    | some c1 =>
      rw [hs] at h
      simp only [Option.some_bind] at h
      have hna : ∀ r, a ≠ Act.userConnect r := by
        intro r hr
        subst hr
        exact hnc r (List.mem_cons_self _ _)
      obtain ⟨hf1, hp1, hcc1⟩ := step_after_forced hs hna hf hp
      obtain ⟨hf2, hp2, hcc2⟩ :=
        ih (fun r hr => hnc r (List.mem_cons_of_mem _ hr)) hf1 hp1 h
      exact ⟨hf2, hp2, hcc2.trans hcc1⟩

/-! ### The lifecycle never reads the backoff or retry-cap settings -/

/-- Replace the whole settings object of a state. -/
def withSettings (st : Settings) (c : LabUiWebsocket) : LabUiWebsocket :=
  { c with settings := st }

theorem new_settings (st : Settings) : (LabUiWebsocket.new st).settings = st := by
  unfold LabUiWebsocket.new LabUiWebsocket.connect
  split <;> rfl

theorem closeHandler_withSettings {st : Settings} {c : LabUiWebsocket}
    (hri : st.reconnectInterval = c.settings.reconnectInterval) (i : Nat) :
    closeHandler i (withSettings st c) = withSettings st (closeHandler i c) := by
  unfold closeHandler LabUiWebsocket.disarmTimer LabUiWebsocket.updateT
    LabUiWebsocket.findT withSettings
  dsimp only
  by_cases hfc : c.forcedClose
  · rw [if_pos hfc, if_pos hfc]
  · rw [if_neg hfc, if_neg hfc]
    dsimp only
    split
    · dsimp only
      rw [hri]
    · dsimp only
      rw [hri]

theorem step_withSettings {st : Settings} {c : LabUiWebsocket}
    (hri : st.reconnectInterval = c.settings.reconnectInterval) (a : Act) :
    step a (withSettings st c) = (step a c).map (withSettings st) := by
  cases a with
  | userClose =>
    simp only [step]
    cases hw : c.ws with
    | none =>
      rw [close_snd_of_none (show (withSettings st c).ws = none from hw),
        close_snd_of_none hw]
      rfl
    | some i =>
      rw [close_snd_of_some (show (withSettings st c).ws = some i from hw),
        close_snd_of_some hw]
      rfl
  | userConnect r => rfl
  | timeoutFire i =>
    simp only [step]
    have hft : (withSettings st c).findT i = c.findT i := rfl
    rw [hft]
    cases hf : c.findT i with
    | none => rfl
    | some t =>
      dsimp only
      by_cases ha : t.timeoutArmed
      · rw [if_pos ha, if_pos ha]; rfl
      · rw [if_neg ha, if_neg ha]; rfl
  | openEvt i =>
    simp only [step]
    have hft : (withSettings st c).findT i = c.findT i := rfl
    rw [hft]
    cases hf : c.findT i with
    | none => rfl
    | some t =>
      dsimp only
      by_cases ha : t.tstate = TState.connecting && !t.closeRequested
      · rw [if_pos ha, if_pos ha]; rfl
      · rw [if_neg ha, if_neg ha]; rfl
  | closeEvt i =>
    simp only [step]
    have hft : (withSettings st c).findT i = c.findT i := rfl
    rw [hft]
    cases hf : c.findT i with
    | none => rfl
    | some t =>
      dsimp only
      by_cases ha : t.tstate ≠ TState.closed
      · rw [if_pos ha, if_pos ha, closeHandler_withSettings hri]; rfl
      · rw [if_neg ha, if_neg ha]; rfl
  | reconnectFire =>
    simp only [step]
    have hpd : (withSettings st c).pendingReconnect = c.pendingReconnect := rfl
    rw [hpd]
    cases hp : c.pendingReconnect with
    | nil => rfl
    | cons d rest => rfl

theorem run_withSettings {st : Settings} {acts : List Act} {c : LabUiWebsocket}
    (hri : st.reconnectInterval = c.settings.reconnectInterval) :
    run acts (withSettings st c) = (run acts c).map (withSettings st) := by
  induction acts generalizing c with
  | nil => rfl
  | cons a acts ih =>
    simp only [run, step_withSettings hri]
    cases hs : step a c with
    | none => rfl
    | some c1 =>
      simp only [Option.map_some', Option.some_bind]
      exact ih (hri.trans (congrArg Settings.reconnectInterval (step_settings hs)).symm)

theorem new_withSettings {st st' : Settings} (hao : st'.automaticOpen = st.automaticOpen) :
    LabUiWebsocket.new st' = withSettings st' (LabUiWebsocket.new st) := by
  unfold LabUiWebsocket.new LabUiWebsocket.connect withSettings
  dsimp only
  rw [hao]
  by_cases h : st.automaticOpen
  · rw [if_pos h, if_pos h]
  · rw [if_neg h, if_neg h]

/-! ### Claim theorems -/

/-- The retry-delay formula the specification prescribes for the Nth
retry: `min(reconnectIntervalMs * reconnectDecayFactor^(N-1),
maxReconnectIntervalMs)`.  This definition follows the spec's words (the
formula appears nowhere in the code) and is compared against the delay the
embedded code actually arms. -/
def specReconnectDelay (st : Settings) (n : Nat) : ℚ :=
  min ((st.reconnectInterval : ℚ) * st.reconnectDecay ^ (n - 1))
    (st.maxReconnectInterval : ℚ)

/-- C1: the claim is false of the code and the code contradicts its own
settings documentation.  With the default settings, after a first failed
attempt and a failed retry, the delay armed before the 2nd retry is the
flat 1000 ms `reconnectInterval` (first conjunct), while the spec formula
demands min(1000 * 1.5, 30000) = 1500 ms (second and third conjuncts);
in general, replacing `reconnectDecay` and `maxReconnectInterval` by any
values whatsoever produces identical behaviour on every action sequence —
the lifecycle never reads them, so neither has any observable effect on
the scheduling delay (final conjunct). -/
theorem reconnect_delay_flat_ignores_decay :
    ((run [.closeEvt 0, .reconnectFire, .closeEvt 1]
        (LabUiWebsocket.new defaultSettings)).map
      (fun c => c.pendingReconnect) = some [1000]) ∧
    specReconnectDelay defaultSettings 2 = 1500 ∧
    ((1000 : ℚ) ≠ 1500) ∧
    (∀ (st : Settings) (d : ℚ) (mi : Nat) (acts : List Act),
      run acts (LabUiWebsocket.new
        { st with reconnectDecay := d, maxReconnectInterval := mi }) =
      (run acts (LabUiWebsocket.new st)).map
        (withSettings { st with reconnectDecay := d, maxReconnectInterval := mi })) := by
  refine ⟨rfl, ?_, by norm_num, ?_⟩
  · unfold specReconnectDelay defaultSettings
    norm_num
  · intro st d mi acts
    rw [@new_withSettings st { st with reconnectDecay := d, maxReconnectInterval := mi } rfl,
      run_withSettings (by rw [new_settings])]

/-- C2: the claim is false of the code and the code contradicts its own
settings documentation.  With `maxReconnectAttempts := some 1` and three
consecutive failed connect attempts (the count would exceed the cap), the
controller still has a retry scheduled, its status is CONNECTING rather
than the claimed terminal CLOSED, and the only close notification emitted
is the ordinary first-failure one (first conjunct); in general, changing
`maxReconnectAttempts` to any value — or removing the cap — produces
identical behaviour on every action sequence: the cap is never read
(second conjunct). -/
theorem max_reconnect_attempts_never_enforced :
    ((run [.closeEvt 0, .reconnectFire, .closeEvt 1, .reconnectFire, .closeEvt 2]
        (LabUiWebsocket.new
          { defaultSettings with maxReconnectAttempts := some 1 })).map
      (fun c => (c.pendingReconnect, c.readyState, c.notifs)) =
      some ([1000], ReadyState.connecting,
        [.onconnecting, .onconnecting, .onclose, .onconnecting, .onconnecting,
         .onconnecting, .onconnecting])) ∧
    (∀ (st : Settings) (m : Option Nat) (acts : List Act),
      run acts (LabUiWebsocket.new { st with maxReconnectAttempts := m }) =
      (run acts (LabUiWebsocket.new st)).map
        (withSettings { st with maxReconnectAttempts := m })) := by
  refine ⟨rfl, ?_⟩
  intro st m acts
  rw [@new_withSettings st { st with maxReconnectAttempts := m } rfl,
    run_withSettings (by rw [new_settings])]

/-- C3: the first half of the claim holds — the timeout callback itself
emits no user-visible notification and schedules nothing (first conjunct)
— but the second half is false of the code: `timedOut` is reset to `false`
before the callback returns, so it is `false` in every state any other
handler can observe (second conjunct), and when the close event caused by
the forced closure is delivered (asynchronously, as the WebSocket API
requires), the close handler does NOT suppress the close notification: a
fresh default controller whose first connect attempt times out ends the
trace [timeout fires, close event delivered] with notifications
[onconnecting, onconnecting, onclose] — the caller receives the supposedly
suppressed close notification (third conjunct). -/
theorem timeout_close_not_suppressed :
    (∀ (i : Nat) (c c' : LabUiWebsocket), step (.timeoutFire i) c = some c' →
      c'.notifs = c.notifs ∧ c'.pendingReconnect = c.pendingReconnect) ∧
    (∀ (st : Settings) (acts : List Act) (c' : LabUiWebsocket),
      run acts (LabUiWebsocket.new st) = some c' → c'.timedOut = false) ∧
    ((run [.timeoutFire 0, .closeEvt 0] (LabUiWebsocket.new defaultSettings)).map
      (fun c => (c.notifs, c.timedOut)) =
      some ([.onconnecting, .onconnecting, .onclose], false)) := by
  refine ⟨?_, ?_, rfl⟩
  · intro i c c' h
    rw [(step_timeoutFire_inv h).1]
    exact ⟨rfl, rfl⟩
  · intro st acts c' h
    exact (ginv_run (ginv_new st) h).1

theorem timeout_close_not_suppressed_witness :
    (timeoutHandler 0 (LabUiWebsocket.new defaultSettings)).notifs =
      (LabUiWebsocket.new defaultSettings).notifs ∧
    (LabUiWebsocket.new defaultSettings).timedOut = false :=
  ⟨(timeout_close_not_suppressed.1 0 (LabUiWebsocket.new defaultSettings)
      (timeoutHandler 0 (LabUiWebsocket.new defaultSettings)) rfl).1,
   timeout_close_not_suppressed.2.1 defaultSettings [] _ rfl⟩

/-- C4: in any controller-driven execution (the caller never invokes
`connect` directly), if `close()` is called in a reachable state with an
active transport, it returns `true` and the resulting state has
`forcedClose` set; and from that point on — whatever transport events,
timer firings and further `close()` calls occur — no `onconnecting`
notification is ever emitted again and the scheduled-reconnect queue stays
empty, i.e. no reconnect attempt is ever scheduled. -/
theorem close_stops_reconnection :
    ∀ (st : Settings) (acts1 : List Act) (c : LabUiWebsocket),
      noUserConnect acts1 → run acts1 (LabUiWebsocket.new st) = some c →
      ∀ i, c.ws = some i →
        (c.close).1 = true ∧ ((c.close).2).forcedClose = true ∧
        ∀ (acts2 : List Act) (c' : LabUiWebsocket), noUserConnect acts2 →
          run acts2 (c.close).2 = some c' →
          connCount c' = connCount c ∧ c'.pendingReconnect = [] := by
  intro st acts1 c hnc1 h1 i hw
  have hInv : InvNC c := invNC_run (invNC_new st) hnc1 h1
  have hpend : c.pendingReconnect = [] := hInv.2.1 (by rw [hw]; simp)
  refine ⟨?_, ?_, ?_⟩
  · unfold LabUiWebsocket.close
    rw [hw]
  · rw [close_snd_of_some hw]
    rfl
  · intro acts2 c' hnc2 h2
    rw [close_snd_of_some hw] at h2
    have hpend2 : (({ c with forcedClose := true } : LabUiWebsocket).requestClose
        i).pendingReconnect = [] := hpend
    obtain ⟨-, hp', hcc⟩ := run_after_forced hnc2 rfl hpend2 h2
    exact ⟨hcc, hp'⟩

theorem close_stops_reconnection_witness :
    ((LabUiWebsocket.new defaultSettings).close).1 = true ∧
    connCount (closeHandler 0 (((LabUiWebsocket.new defaultSettings).close).2)) =
      connCount (LabUiWebsocket.new defaultSettings) ∧
    (closeHandler 0 (((LabUiWebsocket.new defaultSettings).close).2)).pendingReconnect
      = [] := by
  have happ := close_stops_reconnection defaultSettings [] (LabUiWebsocket.new defaultSettings)
    (fun r hr => absurd hr (List.not_mem_nil _)) rfl 0 rfl
  have hrun := happ.2.2 [Act.closeEvt 0]
    (closeHandler 0 (((LabUiWebsocket.new defaultSettings).close).2))
    (by intro r hr; simp at hr) rfl
  exact ⟨happ.1, hrun.1, hrun.2⟩

/-- C5: the claim is false of the code and the code contradicts its own
field documentation ("the number of attempted reconnects since starting").
After two failed connect attempts `reconnectAttempts` still reads 0 (first
conjunct); indeed in every reachable state of every execution it is 0 —
no failed attempt ever increments it (second conjunct), and the claimed
reset-to-0-on-open holds only vacuously. -/
theorem reconnect_attempts_never_counted :
    ((run [.closeEvt 0, .reconnectFire, .closeEvt 1]
        (LabUiWebsocket.new defaultSettings)).map
      (fun c => c.reconnectAttempts) = some 0) ∧
    (∀ (st : Settings) (acts : List Act) (c' : LabUiWebsocket),
      run acts (LabUiWebsocket.new st) = some c' →
      c'.reconnectAttempts = 0) := by
  refine ⟨rfl, ?_⟩
  intro st acts c' h
  exact (ginv_run (ginv_new st) h).2.1

theorem reconnect_attempts_never_counted_witness :
    (LabUiWebsocket.new defaultSettings).reconnectAttempts = 0 :=
  reconnect_attempts_never_counted.2 defaultSettings [] _ rfl

/-- C6: `send` serializes a structured envelope with the (host) serializer
and transmits the resulting text whenever a transport is active; an
argument that is neither text nor a structured envelope fails with the
invalid-payload-kind error whatever the connection state; and with no
active transport a textual or envelope payload fails synchronously with
the not-connected error — the call produces only the error, nothing is
queued. -/
theorem send_contract :
    (∀ (stringify : SendData → String) (d : SendData),
      send stringify (some ()) (.obj d) = .ok (stringify d)) ∧
    (∀ (stringify : SendData → String) (ws : Option Unit) (n : Int),
      send stringify ws (.scalarNum n) = .error .invalidPayloadKind) ∧
    (∀ (stringify : SendData → String) (s : String),
      send stringify none (.str s) = .error .notConnected) ∧
    (∀ (stringify : SendData → String) (d : SendData),
      send stringify none (.obj d) = .error .notConnected) :=
  ⟨fun _ _ => rfl, fun _ _ _ => rfl, fun _ _ => rfl, fun _ _ => rfl⟩

/-- C7: the decode helper succeeds exactly on textual frames whose payload
parses as JSON, returning the parse result; a textual frame that does not
parse fails with `malformedPayload`; a non-textual frame fails with
`unsupportedPayloadType`; the two failure kinds are distinct values
surfaced to the caller — the helper always returns either the parsed
object or one of the two errors, never silently dropping a frame. -/
theorem get_message_object_contract :
    (∀ (parse : String → Option Json) (f : FrameData) (j : Json),
      get_message_object parse f = .ok j → ∃ s, f = .text s ∧ parse s = some j) ∧
    (∀ (parse : String → Option Json) (s : String), parse s = none →
      get_message_object parse (.text s) = .error .malformedPayload) ∧
    (∀ parse : String → Option Json,
      get_message_object parse .binary = .error .unsupportedPayloadType) ∧
    UiError.malformedPayload ≠ UiError.unsupportedPayloadType := by
  refine ⟨?_, ?_, fun _ => rfl, by decide⟩
  · intro parse f j h
    cases f with
    | text s =>
      refine ⟨s, rfl, ?_⟩
      unfold get_message_object at h
      dsimp only at h
      cases hp : parse s with
      | none => rw [hp] at h; exact absurd h (by simp)
      | some j' =>
        rw [hp] at h
        dsimp only at h
        injection h with h
        rw [h]
    | binary => exact absurd h (by simp [get_message_object])
  · intro parse s hp
    unfold get_message_object
    dsimp only
    rw [hp]

/-- A parse function agreeing with the host `JSON.parse` on the sample
inputs used below: the JSON text consisting of a bare object parses to an
object, everything else is rejected. -/
def parseObjOnly : String → Option Json :=
  fun s => if s = "t" then some (Json.obj []) else none

theorem get_message_object_contract_witness :
    (∃ s, FrameData.text "t" = FrameData.text s ∧
      parseObjOnly s = some (Json.obj [])) ∧
    get_message_object parseObjOnly (.text "nope") = .error .malformedPayload :=
  ⟨get_message_object_contract.1 parseObjOnly (.text "t") (Json.obj []) rfl,
   get_message_object_contract.2.1 parseObjOnly "nope" rfl⟩

/-- C8: `close()` with no active transport returns `false` and leaves the
entire state unchanged (status, `forcedClose`, transports and
`reconnectAttempts` included); with an active transport it returns `true`
after setting `forcedClose` and requesting closure of that transport. -/
theorem close_contract :
    (∀ c : LabUiWebsocket, c.ws = none → c.close = (false, c)) ∧
    (∀ (c : LabUiWebsocket) (i : Nat), c.ws = some i →
      (c.close).1 = true ∧ ((c.close).2).forcedClose = true ∧
      (c.close).2 =
        ({ c with forcedClose := true } : LabUiWebsocket).requestClose i) := by
  refine ⟨fun c hw => ?_, fun c i hw => ?_⟩
  · unfold LabUiWebsocket.close
    rw [hw]
  · refine ⟨?_, ?_, close_snd_of_some hw⟩
    · unfold LabUiWebsocket.close
      rw [hw]
    · rw [close_snd_of_some hw]
      rfl

theorem close_contract_witness :
    (LabUiWebsocket.new { defaultSettings with automaticOpen := false }).close =
      (false, LabUiWebsocket.new { defaultSettings with automaticOpen := false }) ∧
    ((LabUiWebsocket.new defaultSettings).close).1 = true :=
  ⟨close_contract.1 _ rfl, (close_contract.2 (LabUiWebsocket.new defaultSettings) 0 rfl).1⟩

/-- A parse function agreeing with the host `JSON.parse` on the JSON text
consisting of the single literal `null` (per ECMA-404 / the ECMAScript
`JSON.parse` specification, that text is valid JSON and parses to the null
value). -/
def parseNullOnly : String → Option Json :=
  fun s => if s = "null" then some Json.null else none

/-- C9 (counterexample): a frame whose textual payload is the JSON text
`null` decodes successfully — `get_message_object` returns the parsed
value — yet the default message pipeline raises no error and never reaches
`message_logic`: the JavaScript truthiness guard `if (msgObject)` skips
every falsy parse result, so the claim "every successfully decoded message
is dispatched, raising the unimplemented-handler error" is false. -/
theorem onmessage_null_not_dispatched :
    get_message_object parseNullOnly (.text "null") = .ok Json.null ∧
    onmessageDefault parseNullOnly (.text "null") = .ok none ∧
    (Except.ok none : Except UiError (Option Json)) ≠
      Except.error UiError.unimplementedHandler :=
  ⟨rfl, rfl, by simp⟩

/-- C9 (amended): an inbound frame whose decode succeeds is dispatched to
`message_logic` — raising the unimplemented-handler error when the hook
was not overridden — exactly when the decoded value is truthy; a frame
decoding to a falsy JSON value (`null`, `false`, `0`, the empty string) is
skipped without error and without reaching `message_logic`. -/
theorem onmessage_dispatch_amended :
    ∀ (parse : String → Option Json) (f : FrameData) (j : Json),
      get_message_object parse f = .ok j →
      (j.truthy = true →
        onmessageDefault parse f = .error .unimplementedHandler) ∧
      (j.truthy = false → onmessageDefault parse f = .ok none) := by
  intro parse f j h
  constructor <;> intro ht <;>
    simp [onmessageDefault, onmessageWith, h, ht, message_logic]

theorem onmessage_dispatch_amended_witness :
    onmessageDefault parseObjOnly (.text "t") = .error .unimplementedHandler ∧
    onmessageDefault parseNullOnly (.text "null") = .ok none :=
  ⟨(onmessage_dispatch_amended parseObjOnly (.text "t") (Json.obj []) rfl).1 rfl,
   (onmessage_dispatch_amended parseNullOnly (.text "null") Json.null rfl).2 rfl⟩

/-- C10 (counterexample): from a freshly constructed default controller —
one live, still-connecting transport — a single caller-initiated
`connect(false)` yields a state with TWO live (created and not yet closed)
transport instances: `connect` records the new transport without closing
the one it replaces, so the at-most-one-live-transport claim is false for
caller-initiated `connect` while a transport is live. -/
theorem two_live_transports_on_user_connect :
    (run [.userConnect false] (LabUiWebsocket.new defaultSettings)).map liveCount =
      some 2 ∧ ¬ (2 : Nat) ≤ 1 :=
  ⟨rfl, by norm_num⟩

/-- C10 (amended): in every controller-driven execution — the caller never
invokes `connect` directly, so transports arise only from the automatic
initial connect and from scheduled reconnects — at most one live transport
instance exists at every instant. -/
theorem at_most_one_live_transport :
    ∀ (st : Settings) (acts : List Act) (c : LabUiWebsocket),
      noUserConnect acts → run acts (LabUiWebsocket.new st) = some c →
      liveCount c ≤ 1 := by
  intro st acts c hnc h
  exact (invNC_run (invNC_new st) hnc h).2.2.2.2

theorem at_most_one_live_transport_witness :
    liveCount (LabUiWebsocket.new defaultSettings) ≤ 1 :=
  at_most_one_live_transport defaultSettings [] _
    (fun _ hr => absurd hr (List.not_mem_nil _)) rfl
